import Mathlib

/-!
# Verification of the hierarchical resource expansion engine

Shallow embedding of the collection-expansion code of this repository
(processor / sub-processor collections, storage attached-volume PATCH,
storage controller PATCH, DIMM bulk fetch) together with proofs of the
specified properties.

The embedding mirrors, statement by statement, the C++ sources:
* `getSubProcessorCoreCollectionWithExpand`, `getCpuCoreDataByService`,
  `getCpuDataByInterface`, `getProcessorObject` (processor sources),
* `storagePatchAttachedVolumes`, `storageApplyAttachDetach`,
  `storagePatchController`, `findStorageVolume` (storage sources),
* `getAllDimms` (memory.hpp).

D-Bus calls are modelled by passing each call's result in explicitly
(`Except` for fallible calls); the calls a function issues are collected
in an output field, so call-count properties are statable.
-/

namespace BmcWeb

/-! ## The natural-order comparator

Modelled from the spec: `AlphanumLess` is provided by an external helper
(`human_sort`-style) that is not part of the reviewed sources; the spec
states its contract: split each string into maximal runs of digits and
non-digits, compare digit runs by numeric value, non-digit runs lexically,
and break ties by raw string comparison.

We realise that contract by mapping each string to a key in a linearly
ordered type and pulling the order back:
* each maximal run becomes `Sum.inl (numeric value)` for a digit run and
  `Sum.inr (code points)` for a non-digit run, compared lexicographically
  (`ℕ ⊕ₗ List ℕ`),
* the list of run keys is compared lexicographically,
* the raw code-point list is appended (`×ₗ`) as the deterministic
  tie-break.
-/

/-- One comparison key for a maximal run: digit runs by numeric value,
non-digit runs by their code points. -/
abbrev RunKey : Type := ℕ ⊕ₗ List ℕ

/-- Split a character list into maximal runs of digits and non-digits
(`foldr`-based so that no termination argument is needed). -/
def splitRunsStep (c : Char) (acc : List (List Char)) : List (List Char) :=
  match acc with
  | [] => [[c]]
  | (d :: r) :: rest =>
      if c.isDigit = d.isDigit then (c :: d :: r) :: rest
      else [c] :: ((d :: r) :: rest)
  | [] :: rest => [c] :: rest

def splitRuns (l : List Char) : List (List Char) :=
  l.foldr splitRunsStep []

/-- Numeric value of a digit run. -/
def digitsToNat (r : List Char) : ℕ :=
  r.foldl (fun n c => n * 10 + (c.toNat - 48)) 0

/-- Key of one run: numeric for digit runs, code points otherwise. -/
def runKey (r : List Char) : RunKey :=
  if r.all Char.isDigit then toLex (Sum.inl (digitsToNat r))
  else toLex (Sum.inr (r.map Char.toNat))

/-- Modelled from the spec: the full comparison key of a string for the
natural-order comparator — run keys first, raw code points as
tie-break. -/
def alphanumKey (s : String) : List RunKey ×ₗ List ℕ :=
  toLex ((splitRuns s.data).map runKey, s.data.map Char.toNat)

/-- Modelled from the spec: `AlphanumLess`, the natural-order
comparator used by every `std::sort` of collection ids, is an external
helper not present in the reviewed sources; this is the spec's
contract for it (maximal digit/non-digit runs, digit runs by numeric
value, non-digit runs lexically, ties by raw string comparison) as a
strict order: `a` sorts before `b`. -/
def alphanumLess (a b : String) : Prop :=
  alphanumKey a < alphanumKey b

instance : DecidableRel alphanumLess := fun a b =>
  inferInstanceAs (Decidable (alphanumKey a < alphanumKey b))

/-- The non-strict companion used for sorting, exactly the negation a
`std::sort` comparator induces on the sorted output. -/
def alphanumLE (a b : String) : Prop :=
  ¬ alphanumLess b a

instance : DecidableRel alphanumLE := fun a b =>
  inferInstanceAs (Decidable (¬ alphanumLess b a))

instance : IsTotal String alphanumLE :=
  ⟨fun a b =>
    (le_total (alphanumKey a) (alphanumKey b)).imp not_lt.mpr not_lt.mpr⟩

instance : IsTrans String alphanumLE :=
  ⟨fun _ _ _ hab hbc => not_lt.mpr (le_trans (not_lt.mp hab) (not_lt.mp hbc))⟩

instance : IsAntisymm String alphanumLE :=
  ⟨fun a b hab hba => by
    have hk : alphanumKey a = alphanumKey b :=
      le_antisymm (not_lt.mp hab) (not_lt.mp hba)
    have h2 : a.data.map Char.toNat = b.data.map Char.toNat :=
      congrArg (fun p => (ofLex p).2) hk
    have hdata : a.data = b.data :=
      List.map_injective_iff.mpr
        (fun c d hcd => by
          have h3 := congrArg Char.ofNat hcd
          rwa [Char.ofNat_toNat, Char.ofNat_toNat] at h3) h2
    cases a; cases b; simp_all⟩

instance : IsTrichotomous String alphanumLess :=
  ⟨fun a b => by
    rcases lt_trichotomy (alphanumKey a) (alphanumKey b) with h | h | h
    · exact Or.inl h
    · refine Or.inr (Or.inl ?_)
      have h2 : a.data.map Char.toNat = b.data.map Char.toNat :=
        congrArg (fun p => (ofLex p).2) h
      have hdata : a.data = b.data :=
        List.map_injective_iff.mpr
          (fun c d hcd => by
            have h3 := congrArg Char.ofNat hcd
            rwa [Char.ofNat_toNat, Char.ofNat_toNat] at h3) h2
      cases a; cases b; simp_all
    · exact Or.inr (Or.inr h)⟩

instance : IsTrans String alphanumLess :=
  ⟨fun _ _ _ hab hbc => lt_trans hab hbc⟩

instance : IsIrrefl String alphanumLess :=
  ⟨fun _ h => lt_irrefl _ h⟩

/-- Sorting a list of ids the way `std::sort(v.begin(), v.end(),
AlphanumLess<std::string>())` does.  Because `alphanumLE` is total,
transitive and antisymmetric, the sorted permutation of a list is unique,
so insertion sort computes exactly the order any conforming `std::sort`
produces. -/
def alphanumSort (l : List String) : List String :=
  l.insertionSort alphanumLE

/-! ## D-Bus data model

Shallow embedding of the D-Bus response shapes the engine consumes
(`dbus::utility` aliases): property maps, interface maps, the mapper's
`GetSubTree` response and `GetManagedObjects` results.  A
`std::variant` property value is a tagged value; `std::get_if<T>`
succeeds only on the exact alternative. -/

/-- A D-Bus property value (`dbus::utility::DbusVariantType`). -/
inductive DbusValue : Type
  | bool (b : Bool)
  | u16 (n : ℕ)
  | u32 (n : ℕ)
  | u64 (n : ℕ)
  | str (s : String)
  | other
deriving DecidableEq

/-- `dbus::utility::DBusPropertiesMap`. -/
abbrev PropertyMap : Type := List (String × DbusValue)

/-- `dbus::utility::DBusInteracesMap`. -/
abbrev InterfacesMap : Type := List (String × PropertyMap)

/-- `dbus::utility::MapperServiceMap`: service name to interface list. -/
abbrev ServiceMap : Type := List (String × List String)

/-- `dbus::utility::MapperGetSubTreeResponse`. -/
abbrev Subtree : Type := List (String × ServiceMap)

/-- `dbus::utility::ManagedObjectType`. -/
abbrev ManagedObjects : Type := List (String × InterfacesMap)

instance : DecidableEq (String × InterfacesMap) :=
  inferInstance

/-- Error classes distinguished by the continuations: `io_error`
(`boost::system::errc::io_error`, the mapper's way of signalling an empty
result / missing association) versus any other D-Bus error. -/
inductive DbusErr : Type
  | ioError
  | other
deriving DecidableEq

/-- `sdbusplus::message::object_path::filename()`: the final
`/`-separated segment of a path (empty when the path ends in `/`). -/
def pathFilename (p : String) : String :=
  String.mk (p.data.foldl (fun acc c => if c = '/' then [] else acc ++ [c]) [])

/-! ## Member data population: `getCpuCoreDataByService`

Faithful embedding of `getCpuCoreDataByService` (processor source):
the member slot's JSON fields are written in program order, and a
`Present`/`Functional`/`PrettyName`/`Microcode` value of the wrong
variant alternative triggers `messages::internalError(aResp->res)` —
recorded here as the returned `Bool` — followed by an early `return`
that abandons the rest of this member's population (but nothing else).
`messages::internalError` writes an error object and a 500 status into
the single shared response, so the flag is response-global, not stored
in the member's slot. -/

/-- The JSON content of one expanded sub-processor member slot.
`microcodeInfo` records the raw `Microcode` value (serialized as
`"0x" + intToHexString(value, 8)` in the JSON).  `threadExpandIssued`
records that the member issued a recursive
`getSubProcessorThreadCollectionWithExpand` call for its own
`SubProcessors` child collection (`expandLevel > 0`); at
`expandLevel == 0` the child collection is a reference link instead
(`subStub`). -/
structure CoreSlot : Type where
  odataId : String
  name : String
  id : String
  state : String
  health : String
  microcodeInfo : Option ℕ
  subStub : Option String
  threadExpandIssued : Bool
deriving DecidableEq

/-- `/redfish/v1/Systems/system/Processors/<pid>/SubProcessors/<cid>`. -/
def subProcUrl (processorId coreId : String) : String :=
  "/redfish/v1/Systems/system/Processors/" ++ processorId ++
    "/SubProcessors/" ++ coreId

/-- Scan state while iterating a member's interface map: the slot under
construction plus the two local flags of `getCpuCoreDataByService`. -/
structure CoreScan : Type where
  slot : CoreSlot
  present : Bool
  functional : Bool
deriving DecidableEq

/-- One property of `xyz.openbmc_project.State.Decorator.OperationalStatus`:
`Functional` must be a bool, otherwise internal error (early return). -/
def applyOpStatusProp (st : CoreScan) (pv : String × DbusValue) :
    Except CoreScan CoreScan :=
  if pv.1 = "Functional" then
    match pv.2 with
    | .bool b => .ok { st with functional := b }
    | _ => .error st
  else .ok st

/-- One property of `xyz.openbmc_project.Inventory.Item`: `Present` must
be a bool and `PrettyName` a string, otherwise internal error. -/
def applyItemProp (st : CoreScan) (pv : String × DbusValue) :
    Except CoreScan CoreScan :=
  if pv.1 = "Present" then
    match pv.2 with
    | .bool b => .ok { st with present := b }
    | _ => .error st
  else if pv.1 = "PrettyName" then
    match pv.2 with
    | .str s => .ok { st with slot := { st.slot with name := s } }
    | _ => .error st
  else .ok st

/-- One property of `xyz.openbmc_project.Inventory.Item.CpuCore`:
`Microcode` must be a uint32, otherwise internal error. -/
def applyCoreProp (st : CoreScan) (pv : String × DbusValue) :
    Except CoreScan CoreScan :=
  if pv.1 = "Microcode" then
    match pv.2 with
    | .u32 n => .ok { st with slot := { st.slot with microcodeInfo := some n } }
    | _ => .error st
  else .ok st

/-- Fold a property list with early exit (`.error` = `return` taken
after `messages::internalError`). -/
def scanProps (f : CoreScan → String × DbusValue → Except CoreScan CoreScan) :
    CoreScan → PropertyMap → Except CoreScan CoreScan
  | st, [] => .ok st
  | st, p :: rest =>
      match f st p with
      | .ok st' => scanProps f st' rest
      | .error st' => .error st'

/-- The interface dispatch of `getCpuCoreDataByService`'s main loop. -/
def scanInterfaces : CoreScan → InterfacesMap → Except CoreScan CoreScan
  | st, [] => .ok st
  | st, (iface, props) :: rest =>
      let step :=
        if iface = "xyz.openbmc_project.State.Decorator.OperationalStatus" then
          scanProps applyOpStatusProp st props
        else if iface = "xyz.openbmc_project.Inventory.Item" then
          scanProps applyItemProp st props
        else if iface = "xyz.openbmc_project.Inventory.Item.CpuCore" then
          scanProps applyCoreProp st props
        else .ok st
      match step with
      | .ok st' => scanInterfaces st' rest
      | .error st' => .error st'

/-- `getCpuCoreDataByService`: populate one member slot from its
interface map.  Returns the slot content together with the
internal-error flag (`true` when a malformed property aborted the
member's population; the flag models `messages::internalError` on the
shared response). -/
def getCpuCoreDataByService (expandLevel : ℕ) (processorId coreId : String)
    (interfaceMap : InterfacesMap) : CoreSlot × Bool :=
  let slot0 : CoreSlot :=
    { odataId := subProcUrl processorId coreId
      name := "SubProcessor"
      id := coreId
      state := "Enabled"
      health := "OK"
      microcodeInfo := none
      subStub :=
        if expandLevel > 0 then none
        else some (subProcUrl processorId coreId ++ "/SubProcessors")
      threadExpandIssued := expandLevel > 0 }
  match scanInterfaces ⟨slot0, false, false⟩ interfaceMap with
  | .error st => (st.slot, true)
  | .ok st =>
      let s1 := if st.present then st.slot else { st.slot with state := "Absent" }
      let s2 := if st.functional then s1 else { s1 with health := "Critical" }
      (s2, false)

/-! ## Collection expansion: `getSubProcessorCoreCollectionWithExpand`

Faithful embedding of the sub-processor core collection expansion
(the thread variant `getSubProcessorThreadCollectionWithExpand` is
line-for-line isomorphic at the member-resolution stage).  The three
backend calls it issues — the association `endpoints` property read,
the interface-filtered `GetSubTree` and the single `GetManagedObjects`
— are modelled by passing each call's result in; the
`GetManagedObjects` calls actually issued are collected in
`fetchCalls`.

The C++ reads `coreIdToSubtreeRespMap.begin()->second` without checking
the map for emptiness; when the filtered member set is empty this
dereferences the past-the-end iterator of an empty `unordered_map`
(undefined behavior).  The embedding makes that explicit as
`invalidAccess`.  When the map is non-empty, `begin()` returns an
unspecified element; the embedding takes the first filtered entry (the
theorems below use only the emptiness test and the issued-call count,
which do not depend on that choice). -/

/-- One member slot of the collection: a reference stub
(`Members[i]["@odata.id"]` only, `expandLevel == 0`) or an expanded
member written by `getCpuCoreDataByService`. -/
inductive SlotContent : Type
  | stub (coreId : String)
  | expanded (coreId : String) (data : CoreSlot)
deriving DecidableEq

/-- The stable id of the member occupying a slot. -/
def SlotContent.memberId : SlotContent → String
  | .stub cid => cid
  | .expanded cid _ => cid

/-- Whether the slot issued a recursive (thread sub-collection)
expansion call. -/
def SlotContent.recursed : SlotContent → Bool
  | .stub _ => false
  | .expanded _ d => d.threadExpandIssued

/-- Observable result of one collection expansion call: the member
slots in order, the `Members@odata.count` field (if written), the
shared-response internal-error flag, the `GetManagedObjects` calls
issued (service names), and the undefined-behavior marker. -/
structure ExpandResult : Type where
  slots : List SlotContent
  countField : Option ℕ
  globalError : Bool
  fetchCalls : List String
  invalidAccess : Bool
deriving DecidableEq

/-- Member ids of the result, in slot order. -/
def ExpandResult.memberIds (r : ExpandResult) : List String :=
  r.slots.map SlotContent.memberId

/-- Number of recursive child-collection expansion calls issued. -/
def ExpandResult.recursiveCalls (r : ExpandResult) : ℕ :=
  r.slots.countP (fun s => s.recursed)

/-- Association-container lookup (`unordered_map::find` /
`operator[]` on a map built by first-wins `insert`): the value of the
first entry with the given key. -/
def assocFind {α : Type} (m : List (String × α)) (k : String) : Option α :=
  match m with
  | [] => none
  | (k', v) :: rest => if k = k' then some v else assocFind rest k

/-- The `GetManagedObjects`-callback loop over the sorted core ids
(lines `for (const std::string& coreId : cores)`).  `m` is
`coreIdToSubtreeRespMap` (first insertion wins, as for
`unordered_map::insert`), `mo` is `corePathToInterfacesMap`
(`operator[]` default-constructs an empty map for a missing path).
Returns the slots written and the internal-error flag; an empty
`serviceMap2` aborts the whole loop (`return`), leaving the remaining
slots unwritten, while a malformed property flags the error and moves
on to the next member. -/
def buildSlots (expandLevel : ℕ) (processorId : String)
    (m : List (String × (String × ServiceMap))) (mo : ManagedObjects) :
    List String → List SlotContent × Bool
  | [] => ([], false)
  | coreId :: rest =>
      if expandLevel > 0 then
        let e := (assocFind m coreId).getD ("", [])
        if e.2.isEmpty then ([], true)
        else
          let r := getCpuCoreDataByService (expandLevel - 1) processorId coreId
            ((assocFind mo e.1).getD [])
          let restR := buildSlots expandLevel processorId m mo rest
          (.expanded coreId r.1 :: restR.1, r.2 || restR.2)
      else
        let restR := buildSlots expandLevel processorId m mo rest
        (.stub coreId :: restR.1, restR.2)

/-- The members resolved by one core-collection expansion: the subtree
entries whose path also appears in the association's endpoint list
(`objectPathsMap` filtering). -/
def resolvedMembers (endpoints : List String) (subtree : Subtree) : Subtree :=
  subtree.filter (fun e => endpoints.contains e.1)

/-- The continuation of `getSubProcessorCoreCollectionWithExpand`
after member resolution: sort the member ids, read
`coreIdToSubtreeRespMap.begin()->second` (undefined behavior when the
member set is empty — `invalidAccess`), bail out with an internal
error when that service map is empty, otherwise issue the single
`GetManagedObjects` to `serviceMap.begin()->first` and run the member
loop on its result.  `Members@odata.count` is written synchronously
after issuing the call, so it is set even when the call later fails. -/
def expandResolved (expandLevel : ℕ) (processorId : String)
    (filtered : Subtree) (managedRes : Except Unit ManagedObjects) :
    ExpandResult :=
  let cores := filtered.map (fun e => pathFilename e.1)
  let sortedCores := alphanumSort cores
  match filtered with
  | [] =>
      { slots := [], countField := none, globalError := false,
        fetchCalls := [], invalidAccess := true }
  | first :: _ =>
    if first.2.isEmpty then
      { slots := [], countField := none, globalError := true,
        fetchCalls := [], invalidAccess := false }
    else
      let serviceName := ((first.2.head?).getD ("", [])).1
      let m := filtered.map (fun e => (pathFilename e.1, e))
      match managedRes with
      | .error _ =>
          { slots := [], countField := some cores.length,
            globalError := true, fetchCalls := [serviceName],
            invalidAccess := false }
      | .ok dbusData =>
          let built := buildSlots expandLevel processorId m dbusData
            sortedCores
          { slots := built.1, countField := some cores.length,
            globalError := built.2, fetchCalls := [serviceName],
            invalidAccess := false }

/-- `getSubProcessorCoreCollectionWithExpand`. -/
def subProcCoreExpand (expandLevel : ℕ) (processorId : String)
    (endpointsRes : Except DbusErr (List String))
    (subtreeRes : Except DbusErr Subtree)
    (managedRes : Except Unit ManagedObjects) : ExpandResult :=
  match endpointsRes with
  | .error .ioError =>
      { slots := [], countField := some 0, globalError := false,
        fetchCalls := [], invalidAccess := false }
  | .error .other =>
      { slots := [], countField := none, globalError := true,
        fetchCalls := [], invalidAccess := false }
  | .ok endpoints =>
    match subtreeRes with
    | .error .ioError =>
        { slots := [], countField := some 0, globalError := false,
          fetchCalls := [], invalidAccess := false }
    | .error .other =>
        { slots := [], countField := none, globalError := true,
          fetchCalls := [], invalidAccess := false }
    | .ok subtree =>
        expandResolved expandLevel processorId
          (resolvedMembers endpoints subtree) managedRes

/-- The per-member population the loop performs at positive depth:
member `id`'s slot content is computed from `id`'s own subtree entry
and `id`'s own slice of the bulk-fetch data, independently of any
sibling. -/
def memberSlotFor (lvl : ℕ) (pid : String)
    (m : List (String × (String × ServiceMap))) (mo : ManagedObjects)
    (id : String) : CoreSlot × Bool :=
  getCpuCoreDataByService (lvl - 1) pid id
    ((assocFind mo ((assocFind m id).getD ("", [])).1).getD [])

/-- `getAllDimms` (memory.hpp): the loop issues one `GetManagedObjects`
call per entry of `serviceToObjectManagerPath`; this returns the service
names called, in loop order. -/
def getAllDimmsCalls (serviceToObjectManagerPath : List (String × String)) :
    List String :=
  serviceToObjectManagerPath.map Prod.fst

/-- `chassisDriveCollectionGet` (storage.hpp): the member ids of the
chassis drive collection are the association endpoints' leaf names
(`filename()`), sorted with `AlphanumLess` before the member links are
emitted. -/
def chassisDriveMemberIds (endpoints : List String) : List String :=
  alphanumSort (endpoints.map pathFilename)

/-- Observable result of `getProcessorCollectionWithExpand`: the member
ids in slot order, the `Members@odata.count` field and the shared
response's internal-error flag. -/
structure ProcCollectionResult : Type where
  memberIds : List String
  countField : Option ℕ
  globalError : Bool
deriving DecidableEq

/-- `getProcessorCollectionWithExpand` (processor source): on the
`GetSubTree` result, collect each entry's `filename()` into `cpus`,
sort with `AlphanumLess`, then loop over the sorted ids assigning
member slot `i` to the `i`-th sorted id (each slot's content is then
driven by `getProcessorData` on that member's own map entry with
`expandLevel - 1`, which does not affect slot ids);
`Members@odata.count` is the loop count.  `io_error` yields the empty
collection, any other error an internal error. -/
def getProcessorCollectionWithExpand (_expandLevel : ℕ)
    (subtreeRes : Except DbusErr Subtree) : ProcCollectionResult :=
  match subtreeRes with
  | .error .ioError =>
      { memberIds := [], countField := some 0, globalError := false }
  | .error .other =>
      { memberIds := [], countField := none, globalError := true }
  | .ok subtree =>
      let cpus := subtree.map (fun e => pathFilename e.1)
      let sorted := alphanumSort cpus
      { memberIds := sorted, countField := some sorted.length,
        globalError := false }

/-- One `GetManagedObjects` response's contribution to the DIMM
collection (`getAllDimmsCallback`, collection case `dimmId` unset):
every managed object with a non-empty `filename()` and the `Dimm`
interface appends one member, in response order. -/
def dimmIdsOfResponse (objects : ManagedObjects) : List String :=
  (objects.filter (fun e =>
      decide (pathFilename e.1 ≠ "") &&
        e.2.any (fun i => i.1 == "xyz.openbmc_project.Inventory.Item.Dimm"))).map
    (fun e => pathFilename e.1)

/-- The DIMM collection's `Members` ids after every bulk response has
been processed, in the (backend-determined) arrival order of the
per-service responses. -/
def dimmMemberIdsBeforeSort (responses : List ManagedObjects) : List String :=
  (responses.map dimmIdsOfResponse).flatten

/-- Modelled from the spec: `json_util::sortJsonArrayByKey`, the final
sort of the DIMM collection's `Members` array by each member's
`@odata.id` (whose final segment is the member's stable id), run by
`populatePartitions` once the last response handler releases the
shared state, is an external helper not in the reviewed sources; per
the spec's ordering invariant ("member order in any ResultCollection
is the NaturalOrderComparator's order over stableId") it fixes the
natural order over the members' stable ids. -/
def sortJsonArrayByKey (memberIds : List String) : List String :=
  alphanumSort memberIds

/-- The DIMM (memory-module) collection's final member ids: the
arrival-ordered appends, re-sorted at the end. -/
def memoryCollectionMemberIds (responses : List ManagedObjects) : List String :=
  sortJsonArrayByKey (dimmMemberIdsBeforeSort responses)

/-! ## Claim C8: required single-object lookups

Embeddings of `getProcessorObject` (processor source) and
`findStorageVolume` (storage source): both resolve a required single
object by id and report `messages::resourceNotFound` when nothing
matches. -/

/-- `str.ends_with(suffix)` on the character list. -/
def strEndsWith (s suffix : String) : Bool :=
  suffix.data.isSuffixOf s.data

/-- The interfaces which imply a D-Bus object represents a Processor
(`processorInterfaces` in the source). -/
def processorInterfaces : List String :=
  ["xyz.openbmc_project.Inventory.Item.Cpu",
   "xyz.openbmc_project.Inventory.Item.Accelerator"]

/-- The loop body's match condition in `getProcessorObject`: the object
path ends with the requested processor id and some service exposes a
CPU-specific interface (`std::find_first_of` over
`processorInterfaces`). -/
def isProcessorEntry (processorId : String) (e : String × ServiceMap) : Bool :=
  strEndsWith e.1 processorId &&
    e.2.any (fun sv => sv.2.any (fun i => processorInterfaces.contains i))

/-- Outcome of a required single-object resolution: the continuation is
invoked on a found object, or the response carries
`resourceNotFound`, or an internal error.  There is no
"success with an empty collection" outcome anywhere in these
functions. -/
inductive SingleOutcome : Type
  | handled (path : String) (sm : ServiceMap)
  | notFound
  | fatal
deriving DecidableEq

/-- `getProcessorObject`: scan the subtree for the first entry matching
the processor id and interfaces; call the handler on it, else report
`resourceNotFound` (never an empty success). -/
def getProcessorObjectOutcome (subtreeRes : Except Unit Subtree)
    (processorId : String) : SingleOutcome :=
  match subtreeRes with
  | .error _ => .fatal
  | .ok st =>
      match st.find? (isProcessorEntry processorId) with
      | some e => .handled e.1 e.2
      | none => .notFound

/-- The member loop of `findStorageVolume`: first entry whose stable id
equals the requested volume id; an empty derived id or an exhausted
list reports `resourceNotFound`; a matching entry with other than one
connection reports an internal error. -/
def fsvLoop (volumeId : String) : Subtree → SingleOutcome
  | [] => .notFound
  | (path, ifd) :: rest =>
      let id := pathFilename path
      if id = "" then .notFound
      else if id ≠ volumeId then fsvLoop volumeId rest
      else if ifd.length ≠ 1 then .fatal
      else .handled path ifd

/-- `findStorageVolume`: a lookup error or empty subtree is
`resourceNotFound` (`if (ec || subtree.empty())`), otherwise the member
loop decides. -/
def findStorageVolumeOutcome (subtreeRes : Except Unit Subtree)
    (volumeId : String) : SingleOutcome :=
  match subtreeRes with
  | .error _ => .notFound
  | .ok st => fsvLoop volumeId st

/-! ## Claim C9: storage attach/detach computation

Embedding of `storagePatchAttachedVolumes` and
`storageApplyAttachDetach` (storage source).  `std::string`'s
`operator<` is byte-lexicographic; we model it as lexicographic order
on code points.  `std::set_difference` over two sorted ranges copies
the elements of the first range not present in the second; the
embedding follows its two-pointer merge exactly. -/

/-- Code points of a string; `std::string` comparison key. -/
def pathKey (s : String) : List ℕ :=
  s.data.map Char.toNat

/-- `std::string operator<` (byte-lexicographic). -/
def pathLt (a b : String) : Prop :=
  pathKey a < pathKey b

instance : DecidableRel pathLt := fun a b =>
  inferInstanceAs (Decidable (pathKey a < pathKey b))

/-- Non-strict companion of `pathLt` used for sorting. -/
def pathLE (a b : String) : Prop :=
  ¬ pathLt b a

instance : DecidableRel pathLE := fun a b =>
  inferInstanceAs (Decidable (¬ pathLt b a))

instance : IsTotal String pathLE :=
  ⟨fun a b => (le_total (pathKey a) (pathKey b)).imp not_lt.mpr not_lt.mpr⟩

instance : IsTrans String pathLE :=
  ⟨fun _ _ _ hab hbc => not_lt.mpr (le_trans (not_lt.mp hab) (not_lt.mp hbc))⟩

instance : IsAntisymm String pathLE :=
  ⟨fun a b hab hba => by
    have hk : pathKey a = pathKey b :=
      le_antisymm (not_lt.mp hab) (not_lt.mp hba)
    have hdata : a.data = b.data :=
      List.map_injective_iff.mpr
        (fun c d hcd => by
          have h3 := congrArg Char.ofNat hcd
          rwa [Char.ofNat_toNat, Char.ofNat_toNat] at h3) hk
    cases a; cases b; simp_all⟩

/-- `std::sort(v.begin(), v.end())` with the default `std::string`
less; as for `alphanumSort`, the sorted permutation is unique, so
insertion sort computes exactly its observable result. -/
def pathSort (l : List String) : List String :=
  l.insertionSort pathLE

/-- `std::set_difference(first1, last1, first2, last2, out)` on two
sorted ranges: advance past the second range's smaller elements, skip
a common element, copy an element of the first range that the second
does not contain. -/
def setDifference : List String → List String → List String
  | [], _ => []
  | x :: xs, ys =>
      match ys.dropWhile (fun y => decide (pathLt y x)) with
      | [] => x :: setDifference xs []
      | y :: ys' =>
          if x = y then setDifference xs ys'
          else x :: setDifference xs (y :: ys')

/-- `storagePatchAttachedVolumes`'s change computation: the requested
volume paths and the currently attached ones are both sorted
(`std::sort`), then `attaches = requested ∖ existing` and
`detaches = existing ∖ requested` via `std::set_difference`. -/
def storagePatchChanges (updatePaths existing : List String) :
    List String × List String :=
  let u := pathSort updatePaths
  let ex := pathSort existing
  (setDifference u ex, setDifference ex u)

/-- One backend volume mutation issued by `storageApplyAttachDetach`. -/
inductive VolCall : Type
  | detach (v : String)
  | attach (v : String)
deriving DecidableEq

/-- The D-Bus calls `storageApplyAttachDetach` issues when every call
succeeds: it pops `detaches` from the back until empty (one
`DetachVolume` call each), then `attaches` likewise (one
`AttachVolume` call each). -/
def storageApplyCalls (attaches detaches : List String) : List VolCall :=
  detaches.reverse.map .detach ++ attaches.reverse.map .attach

/-! ## Claim C10: storage controller PATCH dispatch -/

/-- Outcome chosen by `storagePatchController` once the request body is
parsed into the two optional sections: `generalError` ("PATCH may only
alter one resource type") when both are present, `noOperation` when
neither is, else one update path. -/
inductive ControllerPatchOutcome : Type
  | generalError
  | noOperation
  | warthogUpdate
  | volumesUpdate
deriving DecidableEq

/-- The dispatch of `storagePatchController`: the both-present check
runs first (before any backend call), then the neither-present check,
then the two independent `if`s — of which at most one can fire, the
both-present case having returned already. -/
def storagePatchControllerDecide {α β : Type} (warthogOem : Option α)
    (attachedVolumes : Option β) : ControllerPatchOutcome :=
  if warthogOem.isSome && attachedVolumes.isSome then .generalError
  else if !(warthogOem.isSome || attachedVolumes.isSome) then .noOperation
  else if warthogOem.isSome then .warthogUpdate
  else .volumesUpdate

/-- The update paths actually invoked for a parsed body (both error
outcomes return before invoking either). -/
def controllerPatchInvoked {α β : Type} (warthogOem : Option α)
    (attachedVolumes : Option β) : List ControllerPatchOutcome :=
  if warthogOem.isSome && attachedVolumes.isSome then []
  else if !(warthogOem.isSome || attachedVolumes.isSome) then []
  else
    (if warthogOem.isSome then [.warthogUpdate] else []) ++
      (if attachedVolumes.isSome then [.volumesUpdate] else [])

/-! ## Theorems -/

theorem alphanumSort_sorted (l : List String) :
    (alphanumSort l).Sorted alphanumLE :=
  List.sorted_insertionSort alphanumLE l

theorem alphanumSort_perm (l : List String) : (alphanumSort l).Perm l :=
  List.perm_insertionSort alphanumLE l

/-- Sorting is a function of the multiset of ids only: any two
enumeration orders of the same ids sort to the same list. -/
theorem alphanumSort_eq_of_perm {l₁ l₂ : List String} (h : l₁.Perm l₂) :
    alphanumSort l₁ = alphanumSort l₂ :=
  List.eq_of_perm_of_sorted
    (((alphanumSort_perm l₁).trans h).trans (alphanumSort_perm l₂).symm)
    (alphanumSort_sorted l₁) (alphanumSort_sorted l₂)

/-! ### Lemmas about the member loop -/

theorem assocFind_mem {α : Type} {m : List (String × α)} {k : String} {v : α}
    (h : assocFind m k = some v) : (k, v) ∈ m := by
  induction m with
  | nil => simp [assocFind] at h
  | cons e rest ih =>
      obtain ⟨k', v'⟩ := e
      simp only [assocFind] at h
      split at h
      · next hk =>
          injection h with h
          subst hk; subst h
          exact List.mem_cons_self _ _
      · exact List.mem_cons_of_mem _ (ih h)

theorem assocFind_isSome_of_mem_keys {α : Type} {m : List (String × α)}
    {k : String} (h : k ∈ m.map Prod.fst) : ∃ v, assocFind m k = some v := by
  induction m with
  | nil => simp at h
  | cons e rest ih =>
      obtain ⟨k', v'⟩ := e
      by_cases hk : k = k'
      · exact ⟨v', by simp [assocFind, hk]⟩
      · have : k ∈ rest.map Prod.fst := by
          simp only [List.map_cons, List.mem_cons] at h
          exact h.resolve_left hk
        obtain ⟨v, hv⟩ := ih this
        exact ⟨v, by simp [assocFind, hk, hv]⟩

/-- Closed form of the member loop at depth `0`: every slot is a
reference stub, in id order, with no error and no recursion. -/
theorem buildSlots_stub (pid : String)
    (m : List (String × (String × ServiceMap))) (mo : ManagedObjects)
    (ids : List String) :
    buildSlots 0 pid m mo ids = (ids.map .stub, false) := by
  induction ids with
  | nil => simp [buildSlots]
  | cons id rest ih => simp [buildSlots, ih]

/-- Closed form of the member loop at positive depth when every member
resolves to a non-empty service map: each slot is the pointwise
population of that member from its own data, and the response error
flag is the disjunction of the members' own error flags. -/
theorem buildSlots_eq_map {lvl : ℕ} (pid : String)
    (m : List (String × (String × ServiceMap))) (mo : ManagedObjects)
    (ids : List String) (hlvl : 0 < lvl)
    (h : ∀ id ∈ ids, ((assocFind m id).getD ("", [])).2.isEmpty = false) :
    buildSlots lvl pid m mo ids =
      (ids.map (fun id => SlotContent.expanded id (memberSlotFor lvl pid m mo id).1),
       ids.any (fun id => (memberSlotFor lvl pid m mo id).2)) := by
  induction ids with
  | nil => simp [buildSlots]
  | cons id rest ih =>
      have h1 := h id (List.mem_cons_self _ _)
      have h2 : ∀ i ∈ rest, ((assocFind m i).getD ("", [])).2.isEmpty = false :=
        fun i hi => h i (List.mem_cons_of_mem _ hi)
      simp [buildSlots, hlvl, h1, ih h2, memberSlotFor, List.any_cons]

theorem isEmpty_false_of_ne_nil {α : Type} {l : List α} (h : l ≠ []) :
    l.isEmpty = false := by
  cases l with
  | nil => exact absurd rfl h
  | cons a t => rfl

/-- The service-map lookup the loop performs never comes back empty
when every resolved member's service map is non-empty. -/
theorem assoc_serviceMap_nonempty {filtered : Subtree}
    (hsm : ∀ e ∈ filtered, e.2 ≠ []) {id : String}
    (hid : id ∈ filtered.map (fun e => pathFilename e.1)) :
    ((assocFind (filtered.map (fun e => (pathFilename e.1, e))) id).getD
        ("", [])).2.isEmpty = false := by
  have hkeys :
      id ∈ (filtered.map (fun e => (pathFilename e.1, e))).map Prod.fst := by
    simpa [List.map_map, Function.comp] using hid
  obtain ⟨v, hv⟩ := assocFind_isSome_of_mem_keys hkeys
  obtain ⟨e, he, heq⟩ := List.mem_map.mp (assocFind_mem hv)
  have hv2 : v.2 = e.2 := by
    have : (e.1, e.2) = v := congrArg Prod.snd heq
    rw [← this]
  rw [hv]
  simpa [Option.getD, hv2] using isEmpty_false_of_ne_nil (hsm e he)

/-- Observable shape of a successful expansion: member ids are the
natural-order sort of the resolved members' stable ids, the count field
is the resolved member count, exactly one bulk fetch is issued and no
invalid access happens. -/
theorem expandResolved_spec (lvl : ℕ) (pid : String) (filtered : Subtree)
    (d : ManagedObjects) (hne : filtered ≠ [])
    (hsm : ∀ e ∈ filtered, e.2 ≠ []) :
    (expandResolved lvl pid filtered (.ok d)).memberIds
        = alphanumSort (filtered.map (fun e => pathFilename e.1)) ∧
      (expandResolved lvl pid filtered (.ok d)).countField
        = some filtered.length ∧
      (expandResolved lvl pid filtered (.ok d)).fetchCalls.length = 1 ∧
      (expandResolved lvl pid filtered (.ok d)).invalidAccess = false := by
  obtain ⟨first, rest, rfl⟩ := List.exists_cons_of_ne_nil hne
  have hfirst : first.2.isEmpty = false :=
    isEmpty_false_of_ne_nil (hsm first (List.mem_cons_self _ _))
  simp only [expandResolved, hfirst, Bool.false_eq_true, if_false]
  refine ⟨?_, by simp, by simp, by simp⟩
  rcases Nat.eq_zero_or_pos lvl with hlvl | hlvl
  · subst hlvl
    simp [ExpandResult.memberIds, buildSlots_stub, List.map_map,
      Function.comp_def, SlotContent.memberId]
  · have hlook : ∀ id ∈ alphanumSort ((first :: rest).map (fun e => pathFilename e.1)),
        ((assocFind ((first :: rest).map (fun e => (pathFilename e.1, e))) id).getD
          ("", [])).2.isEmpty = false := by
      intro id hid
      exact assoc_serviceMap_nonempty hsm ((alphanumSort_perm _).mem_iff.mp hid)
    simp only [List.map_cons] at hlook
    simp [ExpandResult.memberIds, buildSlots_eq_map _ _ _ _ hlvl hlook,
      List.map_map, Function.comp_def, SlotContent.memberId]

/-- At positive depth every slot is the pointwise population of its own
member (so a malformed property in one member cannot change a sibling's
slot), and the response-level error flag is the disjunction of the
members' own flags. -/
theorem expandResolved_pointwise (lvl : ℕ) (pid : String) (filtered : Subtree)
    (d : ManagedObjects) (hlvl : 0 < lvl) (hne : filtered ≠ [])
    (hsm : ∀ e ∈ filtered, e.2 ≠ []) :
    (expandResolved lvl pid filtered (.ok d)).slots
        = (alphanumSort (filtered.map (fun e => pathFilename e.1))).map
            (fun id => SlotContent.expanded id
              (memberSlotFor lvl pid
                (filtered.map (fun e => (pathFilename e.1, e))) d id).1) ∧
      (expandResolved lvl pid filtered (.ok d)).globalError
        = (alphanumSort (filtered.map (fun e => pathFilename e.1))).any
            (fun id => (memberSlotFor lvl pid
              (filtered.map (fun e => (pathFilename e.1, e))) d id).2) := by
  obtain ⟨first, rest, rfl⟩ := List.exists_cons_of_ne_nil hne
  have hfirst : first.2.isEmpty = false :=
    isEmpty_false_of_ne_nil (hsm first (List.mem_cons_self _ _))
  have hlook : ∀ id ∈ alphanumSort ((first :: rest).map (fun e => pathFilename e.1)),
      ((assocFind ((first :: rest).map (fun e => (pathFilename e.1, e))) id).getD
        ("", [])).2.isEmpty = false := by
    intro id hid
    exact assoc_serviceMap_nonempty hsm ((alphanumSort_perm _).mem_iff.mp hid)
  simp only [List.map_cons] at hlook
  simp [expandResolved, hfirst, buildSlots_eq_map _ _ _ _ hlvl hlook]

/-- At depth `0` the loop writes reference stubs only. -/
theorem expandResolved_stubs (pid : String) (filtered : Subtree)
    (d : ManagedObjects) (hne : filtered ≠ [])
    (hsm : ∀ e ∈ filtered, e.2 ≠ []) :
    (expandResolved 0 pid filtered (.ok d)).slots
      = (alphanumSort (filtered.map (fun e => pathFilename e.1))).map .stub := by
  obtain ⟨first, rest, rfl⟩ := List.exists_cons_of_ne_nil hne
  have hfirst : first.2.isEmpty = false :=
    isEmpty_false_of_ne_nil (hsm first (List.mem_cons_self _ _))
  simp [expandResolved, hfirst, buildSlots_stub]

/-- Every branch of the expansion issues at most one bulk
`GetManagedObjects` call. -/
theorem expandResolved_fetchCalls_le_one (lvl : ℕ) (pid : String)
    (filtered : Subtree) (mr : Except Unit ManagedObjects) :
    (expandResolved lvl pid filtered mr).fetchCalls.length ≤ 1 := by
  rcases filtered with _ | ⟨first, rest⟩
  · simp [expandResolved]
  · rcases hfe : first.2.isEmpty with _ | _ <;> rcases mr with u | d <;>
      simp [expandResolved, hfe]

/-- The `.ok`/`.ok` branch of the expansion is the resolved-member
continuation. -/
theorem subProcCoreExpand_ok (lvl : ℕ) (pid : String)
    (endpoints : List String) (s : Subtree) (mr : Except Unit ManagedObjects) :
    subProcCoreExpand lvl pid (.ok endpoints) (.ok s) mr
      = expandResolved lvl pid (resolvedMembers endpoints s) mr := rfl

/-! ## Claim theorems C1–C5 -/

/-- C1: for every collection expansion — sub-processor cores (and the
isomorphic threads), the processor collection, the memory-module
(DIMM) collection and the chassis drive collection — the final member
order is the natural-order comparator's order over the members' stable
ids (the final path segment), and two expansions of the same
discovered object set produce the identical member order regardless of
the order in which the backend agents' asynchronous responses arrive:
the subtree enumeration (`hperm`), the bulk property payloads (`d₁`,
`d₂`), the drive association endpoints (`hperme`) and the per-service
DIMM responses (`hpermr`, whose arrival order decides the
before-sort append order) may each come in any order. -/
theorem claim_C1_deterministic_member_order (lvl : ℕ) (pid : String)
    (endpoints : List String) (s₁ s₂ : Subtree) (d₁ d₂ : ManagedObjects)
    (eps₁ eps₂ : List String) (rs₁ rs₂ : List ManagedObjects)
    (hperm : s₁.Perm s₂) (hperme : eps₁.Perm eps₂) (hpermr : rs₁.Perm rs₂)
    (hne : resolvedMembers endpoints s₁ ≠ [])
    (hsm : ∀ e ∈ resolvedMembers endpoints s₁, e.2 ≠ []) :
    (subProcCoreExpand lvl pid (.ok endpoints) (.ok s₁) (.ok d₁)).memberIds
        = alphanumSort ((resolvedMembers endpoints s₁).map
            (fun e => pathFilename e.1)) ∧
      (subProcCoreExpand lvl pid (.ok endpoints) (.ok s₁) (.ok d₁)).memberIds.Sorted
        alphanumLE ∧
      (subProcCoreExpand lvl pid (.ok endpoints) (.ok s₁) (.ok d₁)).memberIds
        = (subProcCoreExpand lvl pid (.ok endpoints) (.ok s₂) (.ok d₂)).memberIds ∧
      (getProcessorCollectionWithExpand lvl (.ok s₁)).memberIds
        = alphanumSort (s₁.map (fun e => pathFilename e.1)) ∧
      (getProcessorCollectionWithExpand lvl (.ok s₁)).memberIds.Sorted
        alphanumLE ∧
      (getProcessorCollectionWithExpand lvl (.ok s₁)).memberIds
        = (getProcessorCollectionWithExpand lvl (.ok s₂)).memberIds ∧
      (memoryCollectionMemberIds rs₁).Perm (dimmMemberIdsBeforeSort rs₁) ∧
      (memoryCollectionMemberIds rs₁).Sorted alphanumLE ∧
      memoryCollectionMemberIds rs₁ = memoryCollectionMemberIds rs₂ ∧
      (chassisDriveMemberIds eps₁).Sorted alphanumLE ∧
      chassisDriveMemberIds eps₁ = chassisDriveMemberIds eps₂ := by
  have hpf : (resolvedMembers endpoints s₁).Perm (resolvedMembers endpoints s₂) :=
    hperm.filter _
  have hne₂ : resolvedMembers endpoints s₂ ≠ [] := by
    intro h
    exact hne ((hpf.trans (h ▸ List.Perm.refl _)).eq_nil)
  have hsm₂ : ∀ e ∈ resolvedMembers endpoints s₂, e.2 ≠ [] :=
    fun e he => hsm e (hpf.mem_iff.mpr he)
  have h₁ := expandResolved_spec lvl pid _ d₁ hne hsm
  have h₂ := expandResolved_spec lvl pid _ d₂ hne₂ hsm₂
  rw [subProcCoreExpand_ok, subProcCoreExpand_ok, h₁.1, h₂.1]
  refine ⟨rfl, ?_, ?_, rfl, ?_, ?_, ?_, ?_, ?_, ?_, ?_⟩
  · exact alphanumSort_sorted _
  · exact alphanumSort_eq_of_perm (hpf.map _)
  · exact alphanumSort_sorted _
  · show alphanumSort (s₁.map (fun e => pathFilename e.1))
      = alphanumSort (s₂.map (fun e => pathFilename e.1))
    exact alphanumSort_eq_of_perm (hperm.map _)
  · exact alphanumSort_perm _
  · exact alphanumSort_sorted _
  · exact alphanumSort_eq_of_perm ((hpermr.map dimmIdsOfResponse).flatten)
  · exact alphanumSort_sorted _
  · exact alphanumSort_eq_of_perm (hperme.map _)

/-- C2 counterexample: at depth budget `0` the expansion still issues
the bulk `GetManagedObjects` property fetch — the member is emitted as
a reference stub, but the observable property-retrieval call count is
`1`, not `0` as the claim states. -/
theorem claim_C2_counterexample :
    (subProcCoreExpand 0 "cpu0" (.ok ["/inv/cpu0/core0"])
        (.ok [("/inv/cpu0/core0",
          [("svcA", ["xyz.openbmc_project.Inventory.Item.CpuCore"])])])
        (.ok [])).slots = [.stub "core0"] ∧
      (subProcCoreExpand 0 "cpu0" (.ok ["/inv/cpu0/core0"])
        (.ok [("/inv/cpu0/core0",
          [("svcA", ["xyz.openbmc_project.Inventory.Item.CpuCore"])])])
        (.ok [])).fetchCalls.length = 1 ∧
      ¬ (subProcCoreExpand 0 "cpu0" (.ok ["/inv/cpu0/core0"])
        (.ok [("/inv/cpu0/core0",
          [("svcA", ["xyz.openbmc_project.Inventory.Item.CpuCore"])])])
        (.ok [])).fetchCalls.length = 0 := by decide

/-- C2 (amended): at depth budget `0` every discovered member is
emitted only as a reference stub and no recursive expansion call is
issued; however, the single bulk `GetManagedObjects` property fetch of
the collection is still issued (call count `1`, not `0`). -/
theorem claim_C2_depth_zero_stubs (pid : String) (endpoints : List String)
    (s : Subtree) (d : ManagedObjects)
    (hne : resolvedMembers endpoints s ≠ [])
    (hsm : ∀ e ∈ resolvedMembers endpoints s, e.2 ≠ []) :
    (∀ slot ∈ (subProcCoreExpand 0 pid (.ok endpoints) (.ok s) (.ok d)).slots,
        ∃ cid, slot = SlotContent.stub cid) ∧
      (subProcCoreExpand 0 pid (.ok endpoints) (.ok s) (.ok d)).recursiveCalls = 0 ∧
      (subProcCoreExpand 0 pid (.ok endpoints) (.ok s) (.ok d)).fetchCalls.length = 1 := by
  have hstubs := expandResolved_stubs pid _ d hne hsm
  have hspec := expandResolved_spec 0 pid _ d hne hsm
  rw [subProcCoreExpand_ok]
  refine ⟨?_, ?_, hspec.2.2.1⟩
  · intro slot hslot
    rw [hstubs] at hslot
    obtain ⟨cid, _, rfl⟩ := List.mem_map.mp hslot
    exact ⟨cid, rfl⟩
  · rw [ExpandResult.recursiveCalls, hstubs]
    rw [List.countP_eq_zero]
    intro a ha
    obtain ⟨cid, _, rfl⟩ := List.mem_map.mp ha
    simp [SlotContent.recursed]

/-- C3 counterexample: member `core0` carries a `Functional` value of
the wrong variant alternative (`uint32`, not bool).  The code reacts
with `messages::internalError(aResp->res)`, which marks the single
shared response — the whole collection request — with a fatal error
(HTTP 500), not the member's slot; so the fatal error is not scoped to
the member's slot and the parent collection is aborted, contradicting
the claim.  (Sibling content and the count field do survive, as the
amended claim records.) -/
theorem claim_C3_counterexample :
    (subProcCoreExpand 1 "cpu0" (.ok ["/i/core0", "/i/core1"])
        (.ok [("/i/core0", [("svcA", ["i"])]), ("/i/core1", [("svcA", ["i"])])])
        (.ok [("/i/core0",
                [("xyz.openbmc_project.State.Decorator.OperationalStatus",
                   [("Functional", .u32 5)])]),
              ("/i/core1",
                [("xyz.openbmc_project.State.Decorator.OperationalStatus",
                   [("Functional", .bool true)]),
                 ("xyz.openbmc_project.Inventory.Item",
                   [("Present", .bool true)])])])).globalError = true ∧
      (subProcCoreExpand 1 "cpu0" (.ok ["/i/core0", "/i/core1"])
        (.ok [("/i/core0", [("svcA", ["i"])]), ("/i/core1", [("svcA", ["i"])])])
        (.ok [("/i/core0",
                [("xyz.openbmc_project.State.Decorator.OperationalStatus",
                   [("Functional", .u32 5)])]),
              ("/i/core1",
                [("xyz.openbmc_project.State.Decorator.OperationalStatus",
                   [("Functional", .bool true)]),
                 ("xyz.openbmc_project.Inventory.Item",
                   [("Present", .bool true)])])])).memberIds
        = ["core0", "core1"] := by decide

/-- C3 (amended): a malformed property value aborts only that member's
remaining population and raises the internal-error flag on the single
shared response (it is not recorded in the member's slot); sibling
slots are populated pointwise from their own data and the collection's
count field equals the resolved member count regardless of member
errors. -/
theorem claim_C3_isolated_member_failure (lvl : ℕ) (pid : String)
    (endpoints : List String) (s : Subtree) (d : ManagedObjects)
    (hlvl : 0 < lvl)
    (hne : resolvedMembers endpoints s ≠ [])
    (hsm : ∀ e ∈ resolvedMembers endpoints s, e.2 ≠ []) :
    (subProcCoreExpand lvl pid (.ok endpoints) (.ok s) (.ok d)).slots
        = (alphanumSort ((resolvedMembers endpoints s).map
            (fun e => pathFilename e.1))).map
            (fun id => SlotContent.expanded id
              (memberSlotFor lvl pid
                ((resolvedMembers endpoints s).map (fun e => (pathFilename e.1, e)))
                d id).1) ∧
      (subProcCoreExpand lvl pid (.ok endpoints) (.ok s) (.ok d)).countField
        = some (resolvedMembers endpoints s).length ∧
      (subProcCoreExpand lvl pid (.ok endpoints) (.ok s) (.ok d)).globalError
        = (alphanumSort ((resolvedMembers endpoints s).map
            (fun e => pathFilename e.1))).any
            (fun id => (memberSlotFor lvl pid
              ((resolvedMembers endpoints s).map (fun e => (pathFilename e.1, e)))
              d id).2) := by
  have hp := expandResolved_pointwise lvl pid _ d hlvl hne hsm
  have hspec := expandResolved_spec lvl pid _ d hne hsm
  rw [subProcCoreExpand_ok]
  exact ⟨hp.1, hspec.2.1, hp.2⟩

/-- C4 counterexample: five resolved members split across the two
owning agents `svcA` and `svcB`, with depth budget remaining, and the
expansion issues exactly one bulk `GetManagedObjects` call (to the
first member's agent), not the two calls the claim requires. -/
theorem claim_C4_counterexample :
    (subProcCoreExpand 1 "cpu0"
        (.ok ["/i/core0", "/i/core1", "/i/core2", "/i/core3", "/i/core4"])
        (.ok [("/i/core0", [("svcA", ["i"])]), ("/i/core1", [("svcA", ["i"])]),
              ("/i/core2", [("svcA", ["i"])]), ("/i/core3", [("svcB", ["i"])]),
              ("/i/core4", [("svcB", ["i"])])])
        (.ok [])).fetchCalls = ["svcA"] ∧
      ¬ (subProcCoreExpand 1 "cpu0"
        (.ok ["/i/core0", "/i/core1", "/i/core2", "/i/core3", "/i/core4"])
        (.ok [("/i/core0", [("svcA", ["i"])]), ("/i/core1", [("svcA", ["i"])]),
              ("/i/core2", [("svcA", ["i"])]), ("/i/core3", [("svcB", ["i"])]),
              ("/i/core4", [("svcB", ["i"])])])
        (.ok [])).fetchCalls.length = 2 := by decide

/-- C4 (amended): no backend agent is ever queried more than once per
expansion call, but not every owning agent is queried: the
sub-processor expansion issues at most one bulk call in total (to the
first resolved member's first agent), so members owned by other agents
receive no property data; the DIMM fetch (`getAllDimms`) does issue
exactly one bulk call per service in its service map. -/
theorem claim_C4_batching
    (lvl : ℕ) (pid : String) (er : Except DbusErr (List String))
    (sr : Except DbusErr Subtree) (mr : Except Unit ManagedObjects)
    (m : List (String × String)) (hnd : (m.map Prod.fst).Nodup) :
    (subProcCoreExpand lvl pid er sr mr).fetchCalls.length ≤ 1 ∧
      ∀ svc ∈ m.map Prod.fst, (getAllDimmsCalls m).count svc = 1 := by
  constructor
  · rcases er with e | endpoints
    · cases e <;> simp [subProcCoreExpand]
    · rcases sr with e | s
      · cases e <;> simp [subProcCoreExpand]
      · rw [subProcCoreExpand_ok]
        exact expandResolved_fetchCalls_le_one _ _ _ _
  · intro svc hsvc
    exact List.count_eq_one_of_mem hnd hsvc

/-- C5: the claim is right and the code is wrong.  When the association
endpoint read and the subtree listing both succeed but their
capability-filtered intersection is empty (here: a successful empty
endpoint list against a non-empty subtree), the code reaches
`coreIdToSubtreeRespMap.begin()->second` with an empty map and
dereferences the past-the-end iterator of an empty `unordered_map` —
it does access an element of an empty container instead of producing
`Members: []` with count `0`. -/
theorem claim_C5_empty_resolution_invalid_access :
    (subProcCoreExpand 1 "cpu0" (.ok [])
        (.ok [("/xyz/openbmc_project/inventory/system/cpu0/core0",
          [("svcA", ["xyz.openbmc_project.Inventory.Item.CpuCore"])])])
        (.ok [])).invalidAccess = true ∧
      (subProcCoreExpand 1 "cpu0" (.ok [])
        (.ok [("/xyz/openbmc_project/inventory/system/cpu0/core0",
          [("svcA", ["xyz.openbmc_project.Inventory.Item.CpuCore"])])])
        (.ok [])).countField = none := by decide

/-- Witness for C1 at a concrete input: the same two discovered cores
delivered in either enumeration order, with different bulk-fetch
payloads, expand to the same member order, and the same two DIMM
responses delivered in either arrival order sort to the same member
order. -/
theorem claim_C1_witness :
    (subProcCoreExpand 1 "cpu0" (.ok ["/i/core10", "/i/core2"])
        (.ok [("/i/core2", [("svcA", ["i"])]), ("/i/core10", [("svcA", ["i"])])])
        (.ok [])).memberIds
      = (subProcCoreExpand 1 "cpu0" (.ok ["/i/core10", "/i/core2"])
        (.ok [("/i/core10", [("svcA", ["i"])]), ("/i/core2", [("svcA", ["i"])])])
        (.ok [("/x", [])])).memberIds ∧
      memoryCollectionMemberIds
        [[("/i/dimm10", [("xyz.openbmc_project.Inventory.Item.Dimm", [])])],
         [("/i/dimm2", [("xyz.openbmc_project.Inventory.Item.Dimm", [])])]]
      = memoryCollectionMemberIds
        [[("/i/dimm2", [("xyz.openbmc_project.Inventory.Item.Dimm", [])])],
         [("/i/dimm10", [("xyz.openbmc_project.Inventory.Item.Dimm", [])])]] :=
  ⟨(claim_C1_deterministic_member_order 1 "cpu0" ["/i/core10", "/i/core2"]
      [("/i/core2", [("svcA", ["i"])]), ("/i/core10", [("svcA", ["i"])])]
      [("/i/core10", [("svcA", ["i"])]), ("/i/core2", [("svcA", ["i"])])]
      [] [("/x", [])] ["/d/drive1"] ["/d/drive1"] [] []
      (by decide) (by decide) (by decide) (by decide) (by decide)).2.2.1,
   (claim_C1_deterministic_member_order 1 "cpu0" ["/i/core10", "/i/core2"]
      [("/i/core2", [("svcA", ["i"])]), ("/i/core10", [("svcA", ["i"])])]
      [("/i/core10", [("svcA", ["i"])]), ("/i/core2", [("svcA", ["i"])])]
      [] [("/x", [])] ["/d/drive1"] ["/d/drive1"]
      [[("/i/dimm10", [("xyz.openbmc_project.Inventory.Item.Dimm", [])])],
       [("/i/dimm2", [("xyz.openbmc_project.Inventory.Item.Dimm", [])])]]
      [[("/i/dimm2", [("xyz.openbmc_project.Inventory.Item.Dimm", [])])],
       [("/i/dimm10", [("xyz.openbmc_project.Inventory.Item.Dimm", [])])]]
      (by decide) (by decide) (by decide) (by decide)
      (by decide)).2.2.2.2.2.2.2.2.1⟩

/-- Witness for the amended C2 at a concrete input. -/
theorem claim_C2_witness :
    (subProcCoreExpand 0 "cpu0" (.ok ["/i/core0"])
        (.ok [("/i/core0", [("svcA", ["i"])])]) (.ok [])).recursiveCalls = 0 ∧
      (subProcCoreExpand 0 "cpu0" (.ok ["/i/core0"])
        (.ok [("/i/core0", [("svcA", ["i"])])]) (.ok [])).fetchCalls.length = 1 :=
  ⟨(claim_C2_depth_zero_stubs "cpu0" ["/i/core0"]
      [("/i/core0", [("svcA", ["i"])])] [] (by decide) (by decide)).2.1,
   (claim_C2_depth_zero_stubs "cpu0" ["/i/core0"]
      [("/i/core0", [("svcA", ["i"])])] [] (by decide) (by decide)).2.2⟩

/-- Witness for the amended C3 at a concrete input: the count field
still reports both members although `core0`'s data is malformed. -/
theorem claim_C3_witness :
    (subProcCoreExpand 1 "cpu0" (.ok ["/i/core0", "/i/core1"])
        (.ok [("/i/core0", [("svcA", ["i"])]), ("/i/core1", [("svcA", ["i"])])])
        (.ok [("/i/core0",
                [("xyz.openbmc_project.State.Decorator.OperationalStatus",
                   [("Functional", .u32 5)])])])).countField = some 2 :=
  (claim_C3_isolated_member_failure 1 "cpu0" ["/i/core0", "/i/core1"]
    [("/i/core0", [("svcA", ["i"])]), ("/i/core1", [("svcA", ["i"])])]
    [("/i/core0",
       [("xyz.openbmc_project.State.Decorator.OperationalStatus",
          [("Functional", .u32 5)])])]
    (by decide) (by decide) (by decide)).2.1

/-- Witness for the amended C4 at a concrete input. -/
theorem claim_C4_witness :
    (subProcCoreExpand 1 "cpu0" (.ok ["/i/core0"])
        (.ok [("/i/core0", [("svcA", ["i"])])]) (.ok [])).fetchCalls.length ≤ 1 ∧
      ∀ svc ∈ ([("svcA", "/p"), ("svcB", "/q")].map Prod.fst),
        (getAllDimmsCalls [("svcA", "/p"), ("svcB", "/q")]).count svc = 1 :=
  claim_C4_batching 1 "cpu0" (.ok ["/i/core0"])
    (.ok [("/i/core0", [("svcA", ["i"])])]) (.ok [])
    [("svcA", "/p"), ("svcB", "/q")] (by decide)

/-! ## Claim C6: the natural-order comparator's contract -/

/-- A non-empty run of characters of one kind (all digits or all
non-digits) is a single maximal run. -/
theorem splitRuns_const {b : Bool} {r : List Char} (hne : r ≠ [])
    (hall : ∀ c ∈ r, c.isDigit = b) : splitRuns r = [r] := by
  induction r with
  | nil => exact absurd rfl hne
  | cons c rest ih =>
      rcases rest with _ | ⟨d, r'⟩
      · rfl
      · have hd' : ∀ x ∈ d :: r', x.isDigit = b :=
          fun x hx => hall x (List.mem_cons_of_mem _ hx)
        have hrec := ih (by simp) hd'
        have hcd : c.isDigit = d.isDigit := by
          rw [hall c (List.mem_cons_self _ _), hd' d (List.mem_cons_self _ _)]
        show splitRunsStep c (splitRuns (d :: r')) = [c :: d :: r']
        rw [hrec]
        simp [splitRunsStep, hcd]

theorem runKey_digits {r : List Char} (hall : ∀ c ∈ r, c.isDigit = true) :
    runKey r = toLex (Sum.inl (digitsToNat r)) := by
  unfold runKey
  rw [if_pos (List.all_eq_true.mpr hall)]

theorem runKey_nondigits {r : List Char} (hne : r ≠ [])
    (hall : ∀ c ∈ r, c.isDigit = false) :
    runKey r = toLex (Sum.inr (r.map Char.toNat)) := by
  obtain ⟨c, rest, rfl⟩ := List.exists_cons_of_ne_nil hne
  unfold runKey
  rw [if_neg]
  intro h
  have := List.all_eq_true.mp h c (List.mem_cons_self _ _)
  rw [hall c (List.mem_cons_self _ _)] at this
  exact Bool.false_ne_true this

/-- C6: the identifier comparator is a strict total order (transitive,
irreflexive, trichotomous); a string that is one maximal digit run
compares by numeric value against another digit run; a string that is
one maximal non-digit run compares lexically (code-point
lexicographic order) against another non-digit run; strings whose run
keys tie are ordered by raw string comparison; and sorting the ids
`["10", "2", "1"]` with it yields `["1", "2", "10"]`. -/
theorem claim_C6_natural_order_comparator :
    (∀ a b c : String, alphanumLess a b → alphanumLess b c → alphanumLess a c) ∧
      (∀ a : String, ¬ alphanumLess a a) ∧
      (∀ a b : String, alphanumLess a b ∨ a = b ∨ alphanumLess b a) ∧
      (∀ r s : List Char, r ≠ [] → s ≠ [] →
        (∀ c ∈ r, c.isDigit = true) → (∀ c ∈ s, c.isDigit = true) →
        digitsToNat r < digitsToNat s →
        alphanumLess (String.mk r) (String.mk s)) ∧
      (∀ r s : List Char, r ≠ [] → s ≠ [] →
        (∀ c ∈ r, c.isDigit = false) → (∀ c ∈ s, c.isDigit = false) →
        List.Lex (· < ·) (r.map Char.toNat) (s.map Char.toNat) →
        alphanumLess (String.mk r) (String.mk s)) ∧
      (∀ a b : String,
        (splitRuns a.data).map runKey = (splitRuns b.data).map runKey →
        List.Lex (· < ·) (a.data.map Char.toNat) (b.data.map Char.toNat) →
        alphanumLess a b) ∧
      alphanumSort ["10", "2", "1"] = ["1", "2", "10"] := by
  refine ⟨fun a b c => trans_of alphanumLess, fun a => irrefl_of alphanumLess a,
    fun a b => trichotomous_of alphanumLess a b, ?_, ?_, ?_, by decide⟩
  · intro r s hr hs hallr halls h
    unfold alphanumLess alphanumKey
    rw [(Prod.Lex.lt_iff _ _)]
    left
    show ((splitRuns (String.mk r).data).map runKey) <
      ((splitRuns (String.mk s).data).map runKey)
    rw [show (String.mk r).data = r from rfl, show (String.mk s).data = s from rfl,
      splitRuns_const hr hallr, splitRuns_const hs halls,
      List.map_singleton, List.map_singleton,
      runKey_digits hallr, runKey_digits halls]
    exact List.Lex.rel (Sum.Lex.inl_lt_inl_iff.mpr h)
  · intro r s hr hs hallr halls h
    unfold alphanumLess alphanumKey
    rw [(Prod.Lex.lt_iff _ _)]
    left
    show ((splitRuns (String.mk r).data).map runKey) <
      ((splitRuns (String.mk s).data).map runKey)
    rw [show (String.mk r).data = r from rfl, show (String.mk s).data = s from rfl,
      splitRuns_const hr hallr, splitRuns_const hs halls,
      List.map_singleton, List.map_singleton,
      runKey_nondigits hr hallr, runKey_nondigits hs halls]
    exact List.Lex.rel (Sum.Lex.inr_lt_inr_iff.mpr h)
  · intro a b hkeys hraw
    unfold alphanumLess alphanumKey
    rw [(Prod.Lex.lt_iff _ _)]
    exact Or.inr ⟨hkeys, hraw⟩

/-- Witness for C6 at concrete inputs: the digit-run clause applied to
`"2"` versus `"10"`. -/
theorem claim_C6_witness : alphanumLess (String.mk ['2']) (String.mk ['1', '0']) :=
  claim_C6_natural_order_comparator.2.2.2.1 ['2'] ['1', '0']
    (by decide) (by decide) (by decide) (by decide) (by decide)

/-! ## Claim C7: deduplication of overlapping discovery -/

/-- C7: when a backend path `p` is discovered by both overlapping
discovery calls — it appears in the association endpoint list and in
the (duplicate-free) interface-filtered subtree listing — it
contributes exactly one member slot, and the member ids are in sorted
(natural) order, so that member sits at its correctly sorted position.
`huniq` states that no other resolved path shares `p`'s stable id
(otherwise the id legitimately occurs once per such path). -/
theorem claim_C7_dedup_overlapping_discovery (lvl : ℕ) (pid : String)
    (endpoints : List String) (s : Subtree) (d : ManagedObjects) (p : String)
    (hnd : (s.map Prod.fst).Nodup)
    (hp_sub : p ∈ s.map Prod.fst)
    (hp_end : p ∈ endpoints)
    (huniq : ∀ e ∈ resolvedMembers endpoints s,
      pathFilename e.1 = pathFilename p → e.1 = p)
    (hsm : ∀ e ∈ resolvedMembers endpoints s, e.2 ≠ []) :
    (subProcCoreExpand lvl pid (.ok endpoints) (.ok s) (.ok d)).memberIds.count
        (pathFilename p) = 1 ∧
      (subProcCoreExpand lvl pid (.ok endpoints) (.ok s) (.ok d)).memberIds.Sorted
        alphanumLE := by
  obtain ⟨e₀, he₀, hfst⟩ := List.mem_map.mp hp_sub
  have he₀f : e₀ ∈ resolvedMembers endpoints s := by
    rw [resolvedMembers, List.mem_filter]
    exact ⟨he₀, by rw [hfst]; exact (List.elem_iff).mpr hp_end⟩
  have hne : resolvedMembers endpoints s ≠ [] := List.ne_nil_of_mem he₀f
  have hspec := expandResolved_spec lvl pid _ d hne hsm
  rw [subProcCoreExpand_ok, hspec.1]
  refine ⟨?_, alphanumSort_sorted _⟩
  rw [(alphanumSort_perm _).count_eq]
  have hstep1 :
      ((resolvedMembers endpoints s).map (fun e => pathFilename e.1)).count
          (pathFilename p)
        = (resolvedMembers endpoints s).countP
            (fun e => pathFilename e.1 == pathFilename p) := by
    rw [List.count_eq_countP, List.countP_map]
    rfl
  have hstep2 :
      (resolvedMembers endpoints s).countP
          (fun e => pathFilename e.1 == pathFilename p)
        = (resolvedMembers endpoints s).countP (fun e => e.1 == p) := by
    refine List.countP_congr ?_
    intro e he
    constructor
    · intro h
      exact beq_iff_eq.mpr (huniq e he (beq_iff_eq.mp h))
    · intro h
      exact beq_iff_eq.mpr (congrArg pathFilename (beq_iff_eq.mp h))
  have hstep3 :
      (resolvedMembers endpoints s).countP (fun e => e.1 == p)
        = ((resolvedMembers endpoints s).map Prod.fst).count p := by
    rw [List.count_eq_countP, List.countP_map]
    rfl
  rw [hstep1, hstep2, hstep3]
  have hsub : ((resolvedMembers endpoints s).map Prod.fst).Sublist (s.map Prod.fst) :=
    (List.filter_sublist s).map Prod.fst
  have hle : ((resolvedMembers endpoints s).map Prod.fst).count p ≤ 1 := by
    calc ((resolvedMembers endpoints s).map Prod.fst).count p
        ≤ (s.map Prod.fst).count p := hsub.count_le p
      _ = 1 := List.count_eq_one_of_mem hnd hp_sub
  have hge : 1 ≤ ((resolvedMembers endpoints s).map Prod.fst).count p := by
    have : p ∈ (resolvedMembers endpoints s).map Prod.fst :=
      List.mem_map.mpr ⟨e₀, he₀f, hfst⟩
    exact List.count_pos_iff.mpr this
  omega

/-- Witness for C7 at a concrete input: `/i/core0` appears in both the
endpoint list and the subtree and contributes exactly one member. -/
theorem claim_C7_witness :
    (subProcCoreExpand 1 "cpu0" (.ok ["/i/core0", "/i/core0", "/i/core1"])
        (.ok [("/i/core0", [("svcA", ["i"])]), ("/i/core1", [("svcA", ["i"])])])
        (.ok [])).memberIds.count (pathFilename "/i/core0") = 1 :=
  (claim_C7_dedup_overlapping_discovery 1 "cpu0"
    ["/i/core0", "/i/core0", "/i/core1"]
    [("/i/core0", [("svcA", ["i"])]), ("/i/core1", [("svcA", ["i"])])]
    [] "/i/core0" (by decide) (by decide) (by decide) (by decide) (by decide)).1

theorem fsvLoop_notFound {vid : String} {st : Subtree}
    (h : ∀ e ∈ st, pathFilename e.1 ≠ vid) : fsvLoop vid st = .notFound := by
  induction st with
  | nil => rfl
  | cons e rest ih =>
      obtain ⟨path, ifd⟩ := e
      have hid : pathFilename path ≠ vid := h (path, ifd) (List.mem_cons_self _ _)
      show (if pathFilename path = "" then SingleOutcome.notFound
        else if pathFilename path ≠ vid then fsvLoop vid rest
        else if ifd.length ≠ 1 then SingleOutcome.fatal
        else SingleOutcome.handled path ifd) = SingleOutcome.notFound
      by_cases hemp : pathFilename path = ""
      · rw [if_pos hemp]
      · rw [if_neg hemp, if_pos hid]
        exact ih (fun e he => h e (List.mem_cons_of_mem _ he))

/-- C8: a required single-object lookup that resolves to zero matching
backend objects is reported as not-found, never as a successful
response: `getProcessorObject` over a subtree with no entry matching
the processor id, and `findStorageVolume` over a subtree with no entry
whose stable id is the volume id, both yield `resourceNotFound`. -/
theorem claim_C8_required_lookup_not_found (st : Subtree) (pid vid : String)
    (hproc : ∀ e ∈ st, isProcessorEntry pid e = false)
    (hvol : ∀ e ∈ st, pathFilename e.1 ≠ vid) :
    getProcessorObjectOutcome (.ok st) pid = .notFound ∧
      findStorageVolumeOutcome (.ok st) vid = .notFound := by
  constructor
  · have hf : st.find? (isProcessorEntry pid) = none :=
      List.find?_eq_none.mpr (fun e he => by rw [hproc e he]; exact Bool.false_ne_true)
    show (match st.find? (isProcessorEntry pid) with
      | some e => SingleOutcome.handled e.1 e.2
      | none => SingleOutcome.notFound) = SingleOutcome.notFound
    rw [hf]
  · exact fsvLoop_notFound hvol

/-- Witness for C8 at a concrete input: a subtree holding only a DIMM
object matches neither the processor id `cpu7` nor the volume id
`vol7`. -/
theorem claim_C8_witness :
    getProcessorObjectOutcome
        (.ok [("/xyz/openbmc_project/inventory/system/dimm0",
          [("svcA", ["xyz.openbmc_project.Inventory.Item.Dimm"])])]) "cpu7"
      = .notFound ∧
      findStorageVolumeOutcome
        (.ok [("/xyz/openbmc_project/inventory/system/dimm0",
          [("svcA", ["xyz.openbmc_project.Inventory.Item.Dimm"])])]) "vol7"
      = .notFound :=
  claim_C8_required_lookup_not_found
    [("/xyz/openbmc_project/inventory/system/dimm0",
      [("svcA", ["xyz.openbmc_project.Inventory.Item.Dimm"])])]
    "cpu7" "vol7" (by decide) (by decide)

theorem pathKey_injective : Function.Injective pathKey := by
  intro a b h
  have hdata : a.data = b.data :=
    List.map_injective_iff.mpr
      (fun c d hcd => by
        have h3 := congrArg Char.ofNat hcd
        rwa [Char.ofNat_toNat, Char.ofNat_toNat] at h3) h
  cases a; cases b; simp_all

theorem pathLt_irrefl (a : String) : ¬ pathLt a a :=
  lt_irrefl _

theorem pathLt_asymm {a b : String} (h : pathLt a b) : ¬ pathLt b a :=
  lt_asymm h

theorem pathLt_of_pathLE_of_ne {a b : String} (h : pathLE a b) (hne : a ≠ b) :
    pathLt a b :=
  lt_of_le_of_ne (not_lt.mp h) (fun hk => hne (pathKey_injective hk))

theorem pathSort_sorted (l : List String) : (pathSort l).Sorted pathLE :=
  List.sorted_insertionSort pathLE l

theorem pathSort_perm (l : List String) : (pathSort l).Perm l :=
  List.perm_insertionSort pathLE l

theorem pathSort_sorted_lt {l : List String} (h : l.Nodup) :
    (pathSort l).Sorted pathLt := by
  have hnd : (pathSort l).Nodup := (pathSort_perm l).nodup_iff.mpr h
  have := (pathSort_sorted l).and hnd
  exact this.imp (fun hab => pathLt_of_pathLE_of_ne hab.1 hab.2)

theorem dropWhile_head_not {α : Type} (p : α → Bool) :
    ∀ (l : List α) (y : α) (ys' : List α), l.dropWhile p = y :: ys' → p y = false := by
  intro l
  induction l with
  | nil => intro y ys' h; simp [List.dropWhile] at h
  | cons a l' ih =>
      intro y ys' h
      rw [List.dropWhile_cons] at h
      by_cases hpa : p a = true
      · rw [if_pos hpa] at h
        exact ih y ys' h
      · rw [if_neg hpa] at h
        injection h with h1 _
        rw [← h1]
        exact Bool.eq_false_iff.mpr hpa

theorem mem_iff_mem_dropWhile_of_not {v x : String} {b : List String}
    (hv : ¬ pathLt v x) :
    (v ∈ b ↔ v ∈ b.dropWhile (fun y => decide (pathLt y x))) := by
  constructor
  · intro hvb
    have hsplit := List.takeWhile_append_dropWhile
      (p := fun y => decide (pathLt y x)) (l := b)
    rw [← hsplit] at hvb
    rcases List.mem_append.mp hvb with htake | hdrop
    · have hp := List.mem_takeWhile_imp htake
      exact absurd (of_decide_eq_true hp) hv
    · exact hdrop
  · intro hvd
    exact (List.dropWhile_suffix _).subset hvd

/-- On sorted duplicate-free ranges, `std::set_difference` computes
exactly the filter of the first range by non-membership in the
second. -/
theorem setDifference_eq_filter :
    ∀ {a b : List String}, a.Sorted pathLt → b.Sorted pathLt →
      setDifference a b = a.filter (fun v => decide (v ∉ b)) := by
  intro a
  induction a with
  | nil => intro b _ _; rfl
  | cons x xs ih =>
      intro b ha hb
      have hxs : xs.Sorted pathLt := ha.of_cons
      have hxlt : ∀ v ∈ xs, pathLt x v := List.rel_of_sorted_cons ha
      have hmem : ∀ v, ¬ pathLt v x →
          (v ∈ b ↔ v ∈ b.dropWhile (fun y => decide (pathLt y x))) :=
        fun v hv => mem_iff_mem_dropWhile_of_not hv
      have hb' : (b.dropWhile (fun y => decide (pathLt y x))).Sorted pathLt :=
        hb.sublist (List.dropWhile_suffix _).sublist
      rcases hdw : b.dropWhile (fun y => decide (pathLt y x)) with _ | ⟨y, ys'⟩
      · have hxb : x ∉ b := by
          intro hx
          have := (hmem x (pathLt_irrefl x)).mp hx
          rw [hdw] at this
          exact absurd this (List.not_mem_nil x)
        have hvb : ∀ v ∈ xs, v ∉ b := by
          intro v hv hvb
          have := (hmem v (pathLt_asymm (hxlt v hv))).mp hvb
          rw [hdw] at this
          exact absurd this (List.not_mem_nil v)
        have hred : setDifference (x :: xs) b = x :: setDifference xs [] := by
          simp only [setDifference, hdw]
        rw [hred, ih hxs List.sorted_nil,
          List.filter_cons_of_pos (by simp [hxb])]
        congr 1
        refine List.filter_congr ?_
        intro v hv
        exact decide_eq_decide.mpr (by simp [hvb v hv])
      · have hy : ¬ pathLt y x :=
          of_decide_eq_false (dropWhile_head_not _ b y ys' hdw)
        have hymem : ∀ v, ¬ pathLt v x → (v ∈ b ↔ v ∈ y :: ys') := by
          intro v hv
          rw [hmem v hv, hdw]
        have hyys : ∀ v ∈ ys', pathLt y v :=
          List.rel_of_sorted_cons (hdw ▸ hb')
        by_cases hxy : x = y
        · subst hxy
          have hxb : x ∈ b := (hymem x (pathLt_irrefl x)).mpr (List.mem_cons_self _ _)
          have hys' : (ys').Sorted pathLt := (hdw ▸ hb').of_cons
          have hred : setDifference (x :: xs) b = setDifference xs ys' := by
            simp only [setDifference, hdw, if_pos]
          rw [hred, ih hxs hys', List.filter_cons_of_neg (by simp [hxb])]
          refine List.filter_congr ?_
          intro v hv
          have hvx := hxlt v hv
          have hiff : (v ∈ ys') ↔ (v ∈ b) := by
            rw [hymem v (pathLt_asymm hvx)]
            constructor
            · exact fun h => List.mem_cons_of_mem _ h
            · intro h
              rcases List.mem_cons.mp h with h | h
              · exact absurd (h ▸ hvx) (pathLt_irrefl v)
              · exact h
          exact decide_eq_decide.mpr (not_congr hiff)
        · have hxb : x ∉ b := by
            intro hx
            rcases List.mem_cons.mp ((hymem x (pathLt_irrefl x)).mp hx) with h | h
            · exact hxy h
            · exact absurd (hyys x h) hy
          have hred : setDifference (x :: xs) b
              = x :: setDifference xs (y :: ys') := by
            simp only [setDifference, hdw]
            rw [if_neg hxy]
          rw [hred, ih hxs (hdw ▸ hb'),
            List.filter_cons_of_pos (by simp [hxb])]
          congr 1
          refine List.filter_congr ?_
          intro v hv
          have hiff : (v ∈ y :: ys') ↔ (v ∈ b) :=
            (hymem v (pathLt_asymm (hxlt v hv))).symm
          exact decide_eq_decide.mpr (not_congr hiff)

/-- C9: the set of volumes to attach is exactly
requested-minus-currently-attached, the set to detach exactly
currently-attached-minus-requested; no volume is both attached and
detached in one request; and when the requested set equals the
currently attached set, zero `AttachVolume`/`DetachVolume` backend
calls are issued. -/
theorem claim_C9_attach_detach_difference (req ex : List String)
    (hreq : req.Nodup) (hex : ex.Nodup) :
    (storagePatchChanges req ex).1.toFinset = req.toFinset \ ex.toFinset ∧
      (storagePatchChanges req ex).2.toFinset = ex.toFinset \ req.toFinset ∧
      (∀ v, v ∈ (storagePatchChanges req ex).1 →
        v ∉ (storagePatchChanges req ex).2) ∧
      (req.toFinset = ex.toFinset →
        storageApplyCalls (storagePatchChanges req ex).1
          (storagePatchChanges req ex).2 = []) := by
  have hu := pathSort_sorted_lt hreq
  have he := pathSort_sorted_lt hex
  have h1 : (storagePatchChanges req ex).1
      = (pathSort req).filter (fun v => decide (v ∉ pathSort ex)) :=
    setDifference_eq_filter hu he
  have h2 : (storagePatchChanges req ex).2
      = (pathSort ex).filter (fun v => decide (v ∉ pathSort req)) :=
    setDifference_eq_filter he hu
  refine ⟨?_, ?_, ?_, ?_⟩
  · rw [h1]
    ext v
    simp [List.mem_filter, (pathSort_perm req).mem_iff, (pathSort_perm ex).mem_iff]
  · rw [h2]
    ext v
    simp [List.mem_filter, (pathSort_perm req).mem_iff, (pathSort_perm ex).mem_iff]
  · intro v hv1 hv2
    rw [h1] at hv1
    rw [h2] at hv2
    rw [List.mem_filter] at hv1 hv2
    exact of_decide_eq_true hv1.2 (hv2.1)
  · intro heq
    have hperm : req.Perm ex :=
      List.perm_of_nodup_nodup_toFinset_eq hreq hex heq
    have hsorteq : pathSort req = pathSort ex :=
      List.eq_of_perm_of_sorted
        (((pathSort_perm req).trans hperm).trans (pathSort_perm ex).symm)
        (pathSort_sorted req) (pathSort_sorted ex)
    have hempty : ∀ l : List String, l.Sorted pathLt → setDifference l l = [] := by
      intro l hl
      rw [setDifference_eq_filter hl hl]
      rw [List.filter_eq_nil_iff]
      intro a ha
      simp [ha]
    have hc1 : (storagePatchChanges req ex).1 = [] := by
      show setDifference (pathSort req) (pathSort ex) = []
      rw [hsorteq]
      exact hempty _ he
    have hc2 : (storagePatchChanges req ex).2 = [] := by
      show setDifference (pathSort ex) (pathSort req) = []
      rw [hsorteq]
      exact hempty _ he
    rw [hc1, hc2]
    rfl

/-- Witness for C9 at a concrete input: requesting exactly the
currently attached volume set issues no mutation calls. -/
theorem claim_C9_witness :
    storageApplyCalls
        (storagePatchChanges ["/s/volumes/vol1"] ["/s/volumes/vol1"]).1
        (storagePatchChanges ["/s/volumes/vol1"] ["/s/volumes/vol1"]).2 = [] :=
  (claim_C9_attach_detach_difference ["/s/volumes/vol1"] ["/s/volumes/vol1"]
    (by decide) (by decide)).2.2.2 rfl

/-- C10: a PATCH carrying both `Links/AttachedVolumes` and
`Links/Oem/Google/Warthog` is rejected with an error before any
backend mutation; a PATCH carrying neither yields a no-operation error
response; and for every request at most one of the two update paths is
invoked. -/
theorem claim_C10_controller_patch_exclusive {α β : Type}
    (w : Option α) (v : Option β) :
    (w.isSome = true → v.isSome = true →
      storagePatchControllerDecide w v = .generalError ∧
        controllerPatchInvoked w v = []) ∧
      (w = none → v = none →
        storagePatchControllerDecide w v = .noOperation ∧
          controllerPatchInvoked w v = []) ∧
      (controllerPatchInvoked w v).length ≤ 1 := by
  rcases w with _ | a <;> rcases v with _ | b <;>
    simp [storagePatchControllerDecide, controllerPatchInvoked]

/-- Witness for C10 at a concrete input: both sections present is
rejected with no update path invoked. -/
theorem claim_C10_witness :
    storagePatchControllerDecide (some ()) (some ["/v"]) =
        ControllerPatchOutcome.generalError ∧
      controllerPatchInvoked (some ()) (some ["/v"]) = [] :=
  (claim_C10_controller_patch_exclusive (some ()) (some ["/v"])).1 rfl rfl

end BmcWeb

